import Mathlib

/-!
Verification development for the market-cairo-server backend.

Each definition below is a shallow embedding of a route handler, middleware
or schema of the repository (file and line references in the doc comments).
Machine integers and timestamps are modelled as `Int` (millisecond epochs),
MongoDB documents as Lean structures, fallible handlers as `Except`.
HTTP error responses are mapped to the error taxonomy used by the spec
(ValidationError / AuthorizationError / NotFoundError / ConflictError /
DuplicateError), keeping the exact response message of the handler.
-/

namespace MarketCairo

/-- Document ids (Mongo ObjectIds), modelled as naturals. -/
abbrev Id := Nat

/-- Error taxonomy of the spec (section 7), with the handler's response
message retained.  `authorization` carries the `requiresVerification` flag
that the `verifiedOnly` middleware adds to its 403 response. -/
inductive ApiError where
  | validation (msg : String)
  | authorization (msg : String) (requiresVerification : Bool)
  | notFound (msg : String)
  | conflict (msg : String)
  | duplicate (msg : String)
  | serverError
deriving DecidableEq, Repr

/-- `User.verification.status` enum of `src/models/User.js`. -/
inductive VerifStatus where
  | unverified | pending | approved | rejected
deriving DecidableEq, Repr

/-- `Listing.status` enum of `src/models/Listing.js`. -/
inductive ListingStatus where
  | active | sold | pending | removed
deriving DecidableEq, Repr

/-- `Listing.moderationStatus` enum of `src/models/Listing.js`. -/
inductive ModerationStatus where
  | pending | approved | rejected
deriving DecidableEq, Repr

/-- One verification document image (`{ url, filename }`). -/
structure DocImage where
  url : String
  filename : String
deriving DecidableEq, Repr

/-- The `verification` sub-record of the User schema. -/
structure Verification where
  status : VerifStatus
  documentType : Option String
  documentImages : List DocImage
  submittedAt : Option Int
  reviewedAt : Option Int
  reviewedBy : Option Id
  rejectionReason : Option String
deriving DecidableEq, Repr

/-- One entry of `User.notifications` (`src/models/User.js`). -/
structure Notification where
  ntype : String
  title : String
  content : String
  read : Bool
  relatedId : Option Id
  createdAt : Int
deriving DecidableEq, Repr

/-- The User document, restricted to the fields the verified operations
touch (`src/models/User.js`). -/
structure User where
  id : Id
  name : String
  email : String
  isAdmin : Bool
  isActive : Bool
  favorites : List Id
  notifications : List Notification
  verification : Verification
  salesCount : Int
deriving DecidableEq, Repr

/-- One entry of `Listing.reports` (`src/models/Listing.js`). -/
structure Report where
  user : Id
  reason : String
  createdAt : Int
deriving DecidableEq, Repr

/-- The Listing document (`src/models/Listing.js`), restricted to the
fields the verified operations touch. -/
structure Listing where
  id : Id
  title : String
  seller : Id
  status : ListingStatus
  moderationStatus : ModerationStatus
  moderationNote : String
  featured : Bool
  views : Int
  favoritesCount : Int
  reports : List Report
  isDeleted : Bool
  deletedAt : Option Int
  deleteReason : Option String
deriving DecidableEq, Repr

/-! ## Identity verification: submit (routes/verification.js, POST /api/verification/submit) -/

/-- Image count required by the handler: passport = exactly 1, the two
card types = exactly 2 (front and back). -/
def requiredImageCount (documentType : String) : Nat :=
  if documentType = "passport" then 1 else 2

/-- POST /api/verification/submit.  Mirrors the handler: document-type
check, non-empty file check, exact count check (all 400/ValidationError),
then the re-submission guards (400, ConflictError in the spec taxonomy),
then wholesale overwrite of the `verification` sub-record. -/
def submitVerification (documentType : String) (files : List DocImage)
    (u : User) (now : Int) : Except ApiError User :=
  if ¬ (documentType = "passport" ∨ documentType = "student_card" ∨
        documentType = "residential_card") then
    .error (.validation "Invalid document type")
  else if files.length = 0 then
    .error (.validation "Please upload document images")
  else if files.length ≠ requiredImageCount documentType then
    .error (.validation (if documentType = "passport" then
      "Passport requires exactly 1 image"
    else
      (documentType.replace "_" " ") ++ " requires 2 images (front and back)"))
  else if u.verification.status = .approved then
    .error (.conflict "Already verified")
  else if u.verification.status = .pending then
    .error (.conflict "Verification already pending review")
  else
    .ok { u with verification :=
      { status := .pending
        documentType := some documentType
        documentImages := files
        submittedAt := some now
        reviewedAt := none
        reviewedBy := none
        rejectionReason := none } }

/-! ## Identity verification: admin review (routes/admin.js, PUT /api/admin/verifications/:userId/review) -/

/-- Best-effort external email dispatch (utils/emailService).  `ok = false`
models a send failure; the caller catches the failure. -/
def emailDispatch (ok : Bool) : Except Unit Unit :=
  if ok then .ok () else .error ()

/-- The single in-app notification the review handler appends. -/
def reviewNotification (action reason : String) (now : Int) : Notification :=
  { ntype := "system"
    title := if action = "approve" then "Identity Verified!" else "Verification Rejected"
    content := if action = "approve" then
        "Your identity has been verified. You can now post listings!"
      else
        "Your verification was rejected: " ++ reason ++ ". You can resubmit with new documents."
    read := false
    relatedId := none
    createdAt := now }

/-- PUT /api/admin/verifications/:userId/review.  Mirrors the handler:
action check, rejection-reason check (400/ValidationError), user lookup
(404), pending guard (400, ConflictError in the spec taxonomy); on success
sets status / reviewedAt / reviewedBy (+ rejectionReason on reject),
appends one notification, saves, and only then attempts the email inside a
try/catch, so an email failure cannot change the result. -/
def reviewVerification (action reason : String) (adminId : Id)
    (target : Option User) (now : Int) (emailOk : Bool) : Except ApiError User :=
  if ¬ (action = "approve" ∨ action = "reject") then
    .error (.validation "Invalid action. Use approve or reject")
  else if action = "reject" ∧ reason = "" then
    .error (.validation "Rejection reason is required")
  else match target with
    | none => .error (.notFound "User not found")
    | some u =>
      if u.verification.status ≠ .pending then
        .error (.conflict "No pending verification for this user")
      else
        let u' : User := { u with
          verification := { u.verification with
            status := if action = "approve" then .approved else .rejected
            reviewedAt := some now
            reviewedBy := some adminId
            rejectionReason := if action = "reject" then some reason
                               else u.verification.rejectionReason }
          notifications := u.notifications ++ [reviewNotification action reason now] }
        -- email attempt is caught and logged; the saved result stands either way
        let _ := emailDispatch emailOk
        .ok u'

/-- JS `\s` / the whitespace JS `String.prototype.trim` strips (its ASCII
members). -/
def wspC (c : Char) : Bool :=
  c == ' ' || c == '\t' || c == '\n' || c == '\r' || c == '\x0b' || c == '\x0c'

/-- JS `String.prototype.trim` (used by the express-validator `.trim()`
sanitizers), written over the character list so that it evaluates. -/
def trimStr (s : String) : String :=
  String.mk (((s.data.dropWhile wspC).reverse.dropWhile wspC).reverse)

/-! ## Listing report (routes/listings.js, POST /api/listings/:id/report) -/

/-- POST /api/listings/:id/report.  Mirrors the handler: trimmed
non-empty reason (express-validator, 400), duplicate guard (400,
DuplicateError in the spec taxonomy), append one report, re-flag to
pending moderation once `reports.length >= 3`. -/
def reportListing (uid : Id) (reason : String) (l : Listing) (now : Int) :
    Except ApiError Listing :=
  if trimStr reason = "" then
    .error (.validation "Reason is required")
  else if l.reports.any (fun r => r.user = uid) then
    .error (.duplicate "You have already reported this listing")
  else
    let reports' := l.reports ++ [{ user := uid, reason := trimStr reason, createdAt := now }]
    .ok { l with
      reports := reports'
      moderationStatus := if 3 ≤ reports'.length then .pending else l.moderationStatus }

/-! ## Favorite toggle (routes/listings.js, POST /api/listings/:id/favorite) -/

/-- Result of the favorite-toggle handler: the saved user, the saved
listing, and the `isFavorited` flag of the response. -/
structure ToggleResult where
  user : User
  listing : Listing
  isFavorited : Bool
deriving DecidableEq, Repr

/-- POST /api/listings/:id/favorite.  Mirrors the handler: if the listing
id is in `user.favorites` it is spliced out (first occurrence) and the
counter is decremented with a `Math.max(0, ...)` clamp; otherwise it is
pushed and the counter incremented. -/
def toggleFavorite (u : User) (l : Listing) : ToggleResult :=
  if l.id ∈ u.favorites then
    { user := { u with favorites := u.favorites.erase l.id }
      listing := { l with favoritesCount := max 0 (l.favoritesCount - 1) }
      isFavorited := false }
  else
    { user := { u with favorites := u.favorites ++ [l.id] }
      listing := { l with favoritesCount := l.favoritesCount + 1 }
      isFavorited := true }

/-! ## Listing creation (middleware/auth.js verifiedOnly + routes/listings.js POST /api/listings + Listing schema defaults) -/

/-- `Listing.category` enum of the schema. -/
inductive Category where
  | furniture | electronics | books | kitchen | clothing | sports | toys | other
deriving DecidableEq, Repr

/-- `Listing.condition` enum of the schema. -/
inductive Condition where
  | new | likeNew | good | fair
deriving DecidableEq, Repr

/-- Input of POST /api/listings after body parsing; category and
condition are typed, so their closed-enum checks of the Mongoose schema
correspond to type-correctness of the input, while the location area
arrives as a raw string and is checked against the schema's enum list in
`listingInputValid`. -/
structure ListingInput where
  title : String
  description : String
  price : Int
  category : Category
  condition : Condition
  area : String
deriving DecidableEq, Repr

/-- The closed enum of `location.area` in the Listing schema
(`src/models/Listing.js`), in source order. -/
def areaEnum : List String :=
  ["Maadi", "New Cairo", "Zamalek", "Downtown", "Heliopolis",
   "Nasr City", "Sheikh Zayed", "6th of October", "Giza",
   "Mohandessin", "Dokki", "Tagamoa", "Rehab", "Madinet Nasr",
   "El Mokattam", "Ain Shams", "Shubra", "Other"]

/-- The `verifiedOnly` middleware (middleware/auth.js): 403 with
`requiresVerification: true` unless the caller's verification status is
`approved`. -/
def verifiedOnlyCheck (u : User) : Option ApiError :=
  if u.verification.status ≠ .approved then
    some (.authorization "Identity verification required" true)
  else none

/-- Express-validator checks of POST /api/listings plus the schema
constraints on the fields of `ListingInput` (title/description caps,
`price` minimum of 1, `location.area` in the schema's closed enum). -/
def listingInputValid (inp : ListingInput) : Bool :=
  trimStr inp.title ≠ "" ∧ trimStr inp.description ≠ "" ∧
  inp.title.length ≤ 100 ∧ inp.description.length ≤ 2000 ∧ 1 ≤ inp.price ∧
  inp.area ∈ areaEnum

/-- POST /api/listings.  The route stack runs `protect, verifiedOnly`
before the handler, so an unverified caller fails before any validation;
`Listing.create` fills `status`, `moderationStatus`, `isDeleted` (and the
counters) from the schema defaults. -/
def createListing (u : User) (inp : ListingInput) (newId : Id) :
    Except ApiError Listing :=
  match verifiedOnlyCheck u with
  | some e => .error e
  | none =>
    if ¬ listingInputValid inp then
      .error (.validation "Validation failed")
    else
      .ok { id := newId
            title := trimStr inp.title
            seller := u.id
            status := .active
            moderationStatus := .pending
            moderationNote := ""
            featured := false
            views := 0
            favoritesCount := 0
            reports := []
            isDeleted := false
            deletedAt := none
            deleteReason := none }

/-! ## Notification fan-out (routes/messages.js, routes/admin.js) -/

/-- The recipient-side notification update of POST
/api/messages/:conversationId: a MongoDB `$push` with `$each` and
`$slice: -50`, i.e. append then keep only the last 50 entries. -/
def pushMessageNotification (ns : List Notification) (n : Notification) :
    List Notification :=
  let appended := ns ++ [n]
  appended.drop (appended.length - 50)

/-- The in-app notification PUT /api/admin/listings/:id/moderate appends
to the seller. -/
def moderationNotification (action : String) (note : Option String)
    (l : Listing) (now : Int) : Notification :=
  { ntype := "listing"
    title := if action = "approve" then "Listing Approved!" else "Listing Rejected"
    content := if action = "approve" then
        "Your listing \"" ++ l.title ++ "\" has been approved and is now live!"
      else
        "Your listing \"" ++ l.title ++ "\" was rejected. Reason: " ++
          (match note with   -- `note || 'Policy violation'`: empty string is falsy
           | some n => if n = "" then "Policy violation" else n
           | none => "Policy violation")
    read := false
    relatedId := some l.id
    createdAt := now }

/-- PUT /api/admin/listings/:id/moderate.  Mirrors the handler: action
check (400), listing lookup (404), set `moderationStatus` (+ force
`status = removed` on reject), save, then inside one try/catch push a
single notification onto the seller (a plain Mongoose array push, no
`$slice` cap), save the seller and attempt the email; a failure there is
caught and does not fail the moderation. -/
def moderateListing (action : String) (note : Option String)
    (target : Option (Listing × User)) (now : Int) (emailOk : Bool) :
    Except ApiError (Listing × User) :=
  if ¬ (action = "approve" ∨ action = "reject") then
    .error (.validation "Invalid action. Use approve or reject")
  else match target with
    | none => .error (.notFound "Listing not found")
    | some (l, seller) =>
      let l' : Listing := { l with
        moderationStatus := if action = "approve" then .approved else .rejected
        moderationNote := note.getD ""
        status := if action = "reject" then .removed else l.status }
      let seller' : User := { seller with
        notifications := seller.notifications ++ [moderationNotification action note l' now] }
      -- email attempt is inside the same try/catch; the saved state stands
      let _ := emailDispatch emailOk
      .ok (l', seller')

/-! ## Public listing read paths (routes/listings.js) -/

/-- The 2-day grace window in milliseconds, `2 * 24 * 60 * 60 * 1000`,
used identically by the list queries, the by-id fetch and the cleanup
job. -/
def twoDaysMs : Int := 2 * 24 * 60 * 60 * 1000

/-- The filter object of GET /api/listings (also used verbatim by
/featured, /recent and /:id/similar): `moderationStatus: approved` and
`$or` of (active and not deleted) with (deleted and `deletedAt`
strictly greater than `now - twoDaysMs`).  A missing `deletedAt` does not
satisfy the `$gt` comparison. -/
def listQueryMatches (l : Listing) (now : Int) : Bool :=
  decide (l.moderationStatus = .approved) &&
  ((decide (l.status = .active) && !l.isDeleted) ||
   (l.isDeleted && (match l.deletedAt with
     | some d => decide (now - twoDaysMs < d)
     | none => false)))

/-- The delete metadata block the by-id fetch attaches to a soft-deleted
listing it still serves. -/
structure DeleteInfo where
  isDeleted : Bool
  reason : Option String
  deletedAt : Int
deriving DecidableEq, Repr

/-- Requester of a public read (absent for anonymous requests). -/
structure Viewer where
  id : Id
  isAdmin : Bool
  favorites : List Id
deriving DecidableEq, Repr

/-- Outcome of GET /api/listings/:id. -/
inductive GetListingResult where
  | notFound
  | soldView (l : Listing) (info : DeleteInfo)
  | forbidden
  | ok (l : Listing) (isFavorited : Bool)
  | serverError
deriving DecidableEq, Repr

/-- GET /api/listings/:id.  Mirrors the handler: 404 when absent; for a
soft-deleted listing, 404 once `now - deletedAt` exceeds 2 days and
otherwise a response with `status` overridden to `sold` plus `deleteInfo`
(no moderation-status check on this branch); for a live listing a 403
unless approved or the requester is the owner or an admin; views are
incremented unless the requester is the owner. -/
def getListingById (target : Option Listing) (viewer : Option Viewer)
    (now : Int) : GetListingResult :=
  match target with
  | none => .notFound
  | some l =>
    if l.isDeleted then
      match l.deletedAt with
      | none => .serverError     -- `listing.deletedAt.getTime()` throws
      | some d =>
        if twoDaysMs < now - d then .notFound
        else .soldView { l with status := .sold }
               { isDeleted := true, reason := l.deleteReason, deletedAt := d }
    else
      let ownerOrAdmin : Bool := match viewer with
        | some v => decide (v.id = l.seller) || v.isAdmin
        | none => false
      if l.moderationStatus ≠ .approved ∧ ownerOrAdmin = false then
        .forbidden
      else
        let isOwner : Bool := match viewer with
          | some v => decide (v.id = l.seller)
          | none => false
        let l' := if isOwner = false then { l with views := l.views + 1 } else l
        .ok l' (match viewer with
          | some v => decide (l.id ∈ v.favorites)
          | none => false)

/-- Modelled from the spec: the public-visibility predicate of spec
sections 3 and 8 — `moderationStatus=='approved' && ((status=='active' &&
!isDeleted) || (isDeleted && now - deletedAt <= 2 days))`.  Used only to
compare the spec's wording with the query the code actually runs. -/
def specPubliclyVisible (l : Listing) (now : Int) : Bool :=
  decide (l.moderationStatus = .approved) &&
  ((decide (l.status = .active) && !l.isDeleted) ||
   (l.isDeleted && (match l.deletedAt with
     | some d => decide (now - d ≤ twoDaysMs)
     | none => false)))

/-! ## Content filter (utils/contentFilter.js)

The JS filter is a battery of regular expressions applied with
`String.match` (existence check, always against the original text) and
`String.replace` with the /g flag (global leftmost replacement, applied to
the progressively filtered text).  The regexes use only literals,
character classes, alternation, option, greedy counted repetition of a
character class, and word boundaries, so they are embedded with the AST
below and an all-results backtracking matcher whose result order realises
the greedy-leftmost semantics of the JS engine. -/

/-- JS `\w` for the ASCII patterns in use. -/
def wordChar (c : Char) : Bool := c.isAlpha || c.isDigit || c == '_'

/-- Word-ness of an optional context character (string edges count as
non-word). -/
def isWordB : Option Char → Bool
  | some c => wordChar c
  | none => false

/-- Regex AST: epsilon, single-character class, sequence, ordered
alternation, greedy counted repetition of a character class (`{lo,hi}`,
`hi = none` for an unbounded bound), greedy option, word boundary. -/
inductive Re where
  | eps : Re
  | cls : (Char → Bool) → Re
  | seq : Re → Re → Re
  | alt : Re → Re → Re
  | rep : (Char → Bool) → Nat → Option Nat → Re
  | opt : Re → Re
  | wb : Re

/-- All ways a greedy `{lo,hi}` repetition of class `p` can match a
prefix, as (last consumed character, remaining suffix) pairs, longest
consumption first. -/
def mrep (p : Char → Bool) : Nat → Option Nat → Option Char → List Char →
    List (Option Char × List Char)
  | lo, _, prev, [] => if lo = 0 then [(prev, [])] else []
  | lo, hi, prev, c :: rest =>
    if hi = some 0 then
      (if lo = 0 then [(prev, c :: rest)] else [])
    else if p c then
      mrep p (lo - 1) (hi.map (fun m => m - 1)) (some c) rest ++
        (if lo = 0 then [(prev, c :: rest)] else [])
    else
      (if lo = 0 then [(prev, c :: rest)] else [])

/-- All ways `r` can match a prefix of `s` (with `prev` the character just
before `s`, for word boundaries), as (last consumed character, remaining
suffix) pairs in backtracking priority order: the head is the match the JS
engine commits to. -/
def mre : Re → Option Char → List Char → List (Option Char × List Char)
  | .eps, prev, s => [(prev, s)]
  | .cls _, _, [] => []
  | .cls p, _, c :: rest => if p c then [(some c, rest)] else []
  | .seq a b, prev, s => (mre a prev s).flatMap (fun pr => mre b pr.1 pr.2)
  | .alt a b, prev, s => mre a prev s ++ mre b prev s
  | .rep p lo hi, prev, s => mrep p lo hi prev s
  | .opt r, prev, s => mre r prev s ++ [(prev, s)]
  | .wb, prev, s => if isWordB prev != isWordB s.head? then [(prev, s)] else []

/-- Does the regex match anywhere in the remaining input?  This is the JS
`text.match(re)` existence test (the handler only checks `found &&
found.length > 0`).  The fuel argument strictly exceeds the input length
at the top-level call. -/
def scanHas (r : Re) : Nat → Option Char → List Char → Bool
  | 0, _, _ => false
  | fuel + 1, prev, s =>
    if (mre r prev s).isEmpty then
      match s with
      | [] => false
      | c :: rest => scanHas r fuel (some c) rest
    else true

/-- JS `String.replace` with the /g flag: scan left to right, replace each
committed (greedy, leftmost) match with `tok`, continue after it; an empty
match emits the next character and advances one position. -/
def scanReplace (r : Re) (tok : List Char) : Nat → Option Char → List Char → List Char
  | 0, _, s => s
  | fuel + 1, prev, s =>
    match mre r prev s with
    | (pr, rest) :: _ =>
      if rest.length < s.length then
        tok ++ scanReplace r tok fuel pr rest
      else
        match s with
        | [] => tok
        | c :: rest2 => tok ++ c :: scanReplace r tok fuel (some c) rest2
    | [] =>
      match s with
      | [] => []
      | c :: rest2 => c :: scanReplace r tok fuel (some c) rest2

/-- The fixed redaction token (the default `replacement` option, which the
message route never overrides). -/
def hiddenTok : String := "[HIDDEN]"

/-- `filtered.replace(pattern, replacement)` on whole strings. -/
def replAll (r : Re) (s : String) : String :=
  String.mk (scanReplace r hiddenTok.data (s.data.length + 1) none s.data)

/-- `text.match(pattern)` yields a non-empty match list. -/
def hasM (r : Re) (s : String) : Bool :=
  scanHas r (s.data.length + 1) none s.data

/-- Exact-character literal. -/
def lit (c : Char) : Re := .cls (fun x => x == c)

/-- Case-insensitive character literal (for the /i patterns). -/
def litCI (c : Char) : Re := .cls (fun x => x == c.toLower || x == c.toUpper)

/-- Literal string. -/
def strRe (s : String) : Re := s.data.foldr (fun c r => .seq (lit c) r) .eps

/-- Case-insensitive literal string. -/
def strCIRe (s : String) : Re := s.data.foldr (fun c r => .seq (litCI c) r) .eps

/-- Sequence of a list of regexes. -/
def seqs (rs : List Re) : Re := rs.foldr .seq .eps

/-- Ordered alternation of a list of regexes (left first, as in JS). -/
def altList (rs : List Re) : Re := rs.foldr .alt (.cls (fun _ => false))

/-- JS `\d`. -/
def digitC (c : Char) : Bool := c.isDigit

/-- `[A-Za-z0-9]`. -/
def alnumC (c : Char) : Bool := c.isAlpha || c.isDigit

/-- `[0125]`, the second digit of Egyptian mobile prefixes. -/
def prefDigitC (c : Char) : Bool := c == '0' || c == '1' || c == '2' || c == '5'

/-- PATTERNS.phoneNumbers[0]: `\b0?1[0125]\d{8}\b` (g). -/
def phoneRe0 : Re :=
  seqs [.wb, .opt (lit '0'), lit '1', .cls prefDigitC, .rep digitC 8 (some 8), .wb]

/-- PATTERNS.phoneNumbers[1]: `\b(\+?20|0020)\s?1[0125]\s?\d{3,4}\s?\d{4}\b` (g). -/
def phoneRe1 : Re :=
  seqs [.wb, .alt (.seq (.opt (lit '+')) (strRe "20")) (strRe "0020"),
    .opt (.cls wspC), lit '1', .cls prefDigitC,
    .opt (.cls wspC), .rep digitC 3 (some 4), .opt (.cls wspC), .rep digitC 4 (some 4), .wb]

/-- PATTERNS.phoneNumbers[2]: `\b\d{4}\s?\d{3}\s?\d{4}\b` (g). -/
def phoneRe2 : Re :=
  seqs [.wb, .rep digitC 4 (some 4), .opt (.cls wspC), .rep digitC 3 (some 3),
    .opt (.cls wspC), .rep digitC 4 (some 4), .wb]

/-- `[A-Za-z0-9._%+-]`. -/
def emailLocalC (c : Char) : Bool :=
  alnumC c || c == '.' || c == '_' || c == '%' || c == '+' || c == '-'

/-- `[A-Za-z0-9.-]`. -/
def emailDomainC (c : Char) : Bool := alnumC c || c == '.' || c == '-'

/-- `[A-Z|a-z]` — the class in the source literally contains the bar. -/
def emailTldC (c : Char) : Bool := c.isAlpha || c == '|'

/-- PATTERNS.emails: `\b[A-Za-z0-9._%+-]+@[A-Za-z0-9.-]+\.[A-Z|a-z]{2,}\b` (g). -/
def emailRe : Re :=
  seqs [.wb, .rep emailLocalC 1 none, lit '@', .rep emailDomainC 1 none,
    lit '.', .rep emailTldC 2 none, .wb]

/-- `[-a-zA-Z0-9@:%._\+~#=]`. -/
def urlC1 (c : Char) : Bool :=
  c == '-' || alnumC c || c == '@' || c == ':' || c == '%' || c == '.' ||
  c == '_' || c == '+' || c == '~' || c == '#' || c == '='

/-- `[a-zA-Z0-9()]`. -/
def urlC2 (c : Char) : Bool := alnumC c || c == '(' || c == ')'

/-- `[-a-zA-Z0-9()@:%_\+.~#?&//=]`. -/
def urlC3 (c : Char) : Bool :=
  c == '-' || alnumC c || c == '(' || c == ')' || c == '@' || c == ':' ||
  c == '%' || c == '_' || c == '+' || c == '.' || c == '~' || c == '#' ||
  c == '?' || c == '&' || c == '/' || c == '='

/-- PATTERNS.urls[0]:
`https?:\/\/(www\.)?[-a-zA-Z0-9@:%._\+~#=]{1,256}\.[a-zA-Z0-9()]{1,6}\b([-a-zA-Z0-9()@:%_\+.~#?&//=]*)` (g). -/
def urlRe0 : Re :=
  seqs [strRe "http", .opt (lit 's'), strRe "://", .opt (strRe "www."),
    .rep urlC1 1 (some 256), lit '.', .rep urlC2 1 (some 6), .wb, .rep urlC3 0 none]

/-- PATTERNS.urls[1]:
`\bwww\.[-a-zA-Z0-9@:%._\+~#=]{1,256}\.[a-zA-Z0-9()]{1,6}\b([-a-zA-Z0-9()@:%_\+.~#?&//=]*)` (g). -/
def urlRe1 : Re :=
  seqs [.wb, strRe "www.", .rep urlC1 1 (some 256), lit '.',
    .rep urlC2 1 (some 6), .wb, .rep urlC3 0 none]

/-- The TLD alternation of PATTERNS.urls[2]. -/
def tldAlt : Re :=
  altList (["com", "net", "org", "info", "eg", "me", "io", "co", "online", "site"].map strCIRe)

/-- PATTERNS.urls[2]: `\b[a-zA-Z0-9-]+\.(com|net|org|info|eg|me|io|co|online|site)\b` (gi). -/
def urlRe2 : Re :=
  seqs [.wb, .rep (fun c => alnumC c || c == '-') 1 none, lit '.', tldAlt, .wb]

/-- `[a-zA-Z0-9_]` of the handle pattern. -/
def handleC (c : Char) : Bool := alnumC c || c == '_'

/-- PATTERNS.socialMedia[0]: `@[a-zA-Z0-9_]{3,}` (g). -/
def socialRe0 : Re := seqs [lit '@', .rep handleC 3 none]

/-- `[a-zA-Z0-9._-]`. -/
def socialNameC (c : Char) : Bool := alnumC c || c == '.' || c == '_' || c == '-'

/-- PATTERNS.socialMedia[1]:
`\b(facebook|fb|whatsapp|wa|telegram|tg|instagram|insta|twitter|tiktok)\.com\/[a-zA-Z0-9._-]+` (gi). -/
def socialRe1 : Re :=
  seqs [.wb,
    altList (["facebook", "fb", "whatsapp", "wa", "telegram", "tg",
      "instagram", "insta", "twitter", "tiktok"].map strCIRe),
    strCIRe ".com/", .rep socialNameC 1 none]

/-- PATTERNS.socialMedia[2]:
`\b(facebook|fb|whatsapp|wa|telegram|instagram|insta):\s?[a-zA-Z0-9._-]+` (gi). -/
def socialRe2 : Re :=
  seqs [.wb,
    altList (["facebook", "fb", "whatsapp", "wa", "telegram", "instagram", "insta"].map strCIRe),
    lit ':', .opt (.cls wspC), .rep socialNameC 1 none]

/-- PATTERNS.contactPrompts[0]:
`\b(call|text|message|whatsapp|wa|telegram)\s+(me|m)\s+(on|at|@)?\s*:?\s*\d{4,}` (gi). -/
def contactRe : Re :=
  seqs [.wb,
    altList (["call", "text", "message", "whatsapp", "wa", "telegram"].map strCIRe),
    .rep wspC 1 none, altList [strCIRe "me", strCIRe "m"], .rep wspC 1 none,
    .opt (altList [strCIRe "on", strCIRe "at", strRe "@"]),
    .rep wspC 0 none, .opt (lit ':'), .rep wspC 0 none, .rep digitC 4 none]

/-- The full battery in source order: phoneNumbers[0..2], emails,
urls[0..2], socialMedia[0..2], contactPrompts[0]. -/
def allPatterns : List Re :=
  [phoneRe0, phoneRe1, phoneRe2, emailRe, urlRe0, urlRe1, urlRe2,
   socialRe0, socialRe1, socialRe2, contactRe]

/-- Result of `filterPersonalInfo` (the `matches` collection is only built
under the `returnMatches` option, which the message route never passes, so
it is not modelled). -/
structure FilterResult where
  filtered : String
  hasFiltered : Bool
deriving DecidableEq, Repr

/-- One step of the filter loop: `found = text.match(pattern)` (always on
the original text!); when found, `filtered = filtered.replace(pattern,
replacement)` and `hasFiltered = true`. -/
def applyPattern (text : String) (st : String × Bool) (r : Re) : String × Bool :=
  if hasM r text then (replAll r st.1, true) else st

/-- `filterPersonalInfo(text)` of utils/contentFilter.js with the default
options. -/
def filterPersonalInfo (text : String) : FilterResult :=
  let st := allPatterns.foldl (applyPattern text) (text, false)
  { filtered := st.1, hasFiltered := st.2 }

/-- `containsPersonalInfo(text)` of utils/contentFilter.js. -/
def containsPersonalInfo (text : String) : Bool :=
  (filterPersonalInfo text).hasFiltered

/-! ## Conversations and messages (models/Message.js, routes/messages.js) -/

/-- The Message document (`models/Message.js`); `originalContent` has
`select: false` in the schema, so plain queries never return it. -/
structure MessageDoc where
  conversation : Id
  sender : Id
  content : String
  originalContent : Option String
  isFiltered : Bool
  msgType : String
deriving DecidableEq, Repr

/-- The `Message.create` call of POST /api/messages/:conversationId:
content is the filter output, `originalContent` only kept when the filter
fired, `isFiltered` is the filter's flag. -/
def mkMessageDoc (convId senderId : Id) (rawContent : String) (msgType : String) :
    MessageDoc :=
  let filterResult := filterPersonalInfo rawContent
  { conversation := convId
    sender := senderId
    content := filterResult.filtered
    originalContent := if filterResult.hasFiltered then some rawContent else none
    isFiltered := filterResult.hasFiltered
    msgType := msgType }

/-- The cached `lastMessage` snapshot of the Conversation schema. -/
structure LastMessage where
  content : String
  sender : Id
  createdAt : Int
deriving DecidableEq, Repr

/-- The Conversation document (`models/Message.js`); `unreadCount` is a
Map from participant id to count, modelled as an association list. -/
structure Conversation where
  id : Id
  participants : List Id
  listing : Id
  lastMessage : Option LastMessage
  unreadCount : List (Id × Nat)
  isActive : Bool
deriving DecidableEq, Repr

/-- `unreadCount.get(k) || 0`. -/
def unreadGet (m : List (Id × Nat)) (k : Id) : Nat :=
  match m.find? (fun p => p.1 == k) with
  | some p => p.2
  | none => 0

/-- `unreadCount.set(k, v)`. -/
def unreadSet (m : List (Id × Nat)) (k : Id) (v : Nat) : List (Id × Nat) :=
  (m.filter (fun p => p.1 != k)) ++ [(k, v)]

/-- Everything POST /api/messages/:conversationId persists: the new
message, the updated conversation, and the recipient-side notification
(which the route applies with `pushMessageNotification`). -/
structure SendOutcome where
  message : MessageDoc
  conversation : Conversation
  recipient : Id
  recipientNotification : Notification
deriving DecidableEq, Repr

/-- POST /api/messages/:conversationId.  Mirrors the handler: non-empty
content (400), conversation lookup (404), participant check (403), filter
and create the message, then update the conversation: the `lastMessage`
snapshot is set to the raw request `content` (not the filter output) and
the other participant's unread counter is incremented by 1. -/
def sendMessage (target : Option Conversation) (sender : User)
    (content : String) (msgType : String) (now : Int) : Except ApiError SendOutcome :=
  if trimStr content = "" then
    .error (.validation "Message content is required")
  else match target with
  | none => .error (.notFound "Conversation not found")
  | some conv =>
    if sender.id ∉ conv.participants then
      .error (.authorization "Not authorized" false)
    else
      let message := mkMessageDoc conv.id sender.id content msgType
      match conv.participants.find? (fun p => p != sender.id) with
      | none => .error .serverError   -- `otherParticipant.toString()` throws
      | some other =>
        let conv' : Conversation := { conv with
          lastMessage := some { content := content, sender := sender.id, createdAt := now }
          unreadCount := unreadSet conv.unreadCount other (unreadGet conv.unreadCount other + 1) }
        .ok { message := message
              conversation := conv'
              recipient := other
              recipientNotification :=
                { ntype := "message", title := "New Message"
                  content := sender.name ++ " sent you a message"
                  read := false, relatedId := some conv.id, createdAt := now } }

/-- One row of GET /api/messages/conversations: the stored conversation
(including the `lastMessage` snapshot) plus the caller's unread count. -/
structure ConversationView where
  conversation : Conversation
  unreadCount : Nat
deriving DecidableEq, Repr

/-- GET /api/messages/conversations: every active conversation the caller
participates in, returned with its stored `lastMessage` snapshot.  The
only authorization is participation — no admin check. -/
def getConversations (convs : List Conversation) (uid : Id) : List ConversationView :=
  (convs.filter (fun c => decide (uid ∈ c.participants) && c.isActive)).map
    (fun c => { conversation := c, unreadCount := unreadGet c.unreadCount uid })

/-- GET /api/messages/:messageId/original: admin-only endpoint that
selects `+originalContent` and returns `originalContent || content`. -/
def getOriginalMessage (requester : User) (target : Option MessageDoc) :
    Except ApiError (String × String) :=
  if requester.isAdmin = false then
    .error (.authorization "Not authorized - Admin access required" false)
  else match target with
  | none => .error (.notFound "Message not found")
  | some m => .ok (m.content, m.originalContent.getD m.content)

/-! ## Sample documents used by the witnesses -/

/-- A verification sub-record holding only a status. -/
def sampleVerification (st : VerifStatus) : Verification :=
  { status := st, documentType := none, documentImages := []
    submittedAt := none, reviewedAt := none, reviewedBy := none
    rejectionReason := none }

/-- A minimal user document. -/
def sampleUser (i : Id) (st : VerifStatus) : User :=
  { id := i, name := "Mona", email := "mona@example.com", isAdmin := false
    isActive := true, favorites := [], notifications := []
    verification := sampleVerification st, salesCount := 0 }

/-- A minimal listing document. -/
def sampleListing (i : Id) (seller : Id) : Listing :=
  { id := i, title := "Desk", seller := seller, status := .active
    moderationStatus := .pending, moderationNote := "", featured := false
    views := 0, favoritesCount := 0, reports := [], isDeleted := false
    deletedAt := none, deleteReason := none }

/-- A minimal notification record. -/
def sampleNotification : Notification :=
  { ntype := "system", title := "T", content := "c", read := false
    relatedId := none, createdAt := 0 }

/-- A sample verification document image. -/
def sampleImage (n : String) : DocImage := { url := "/uploads/" ++ n, filename := n }

/-! ## Claim theorems: identity verification -/

/-- C5: verification submit requires a documentType among passport /
student_card / residential_card and exactly 1 image for passport or
exactly 2 otherwise, failing with ValidationError on any violation; it
fails with ConflictError when the current status is pending or approved;
on success it overwrites the verification sub-record wholesale (clearing
any previous rejection reason) and sets status to pending. -/
theorem c5_submit_verification (dt : String) (files : List DocImage)
    (u : User) (now : Int) :
    (¬ (dt = "passport" ∨ dt = "student_card" ∨ dt = "residential_card") →
      submitVerification dt files u now = .error (.validation "Invalid document type")) ∧
    ((dt = "passport" ∨ dt = "student_card" ∨ dt = "residential_card") →
      files.length ≠ requiredImageCount dt →
      (∃ m, submitVerification dt files u now = .error (.validation m))) ∧
    ((dt = "passport" ∨ dt = "student_card" ∨ dt = "residential_card") →
      files.length = requiredImageCount dt →
      (u.verification.status = .pending ∨ u.verification.status = .approved) →
      (∃ m, submitVerification dt files u now = .error (.conflict m))) ∧
    ((dt = "passport" ∨ dt = "student_card" ∨ dt = "residential_card") →
      files.length = requiredImageCount dt →
      u.verification.status ≠ .pending → u.verification.status ≠ .approved →
      submitVerification dt files u now = .ok { u with verification :=
        { status := .pending, documentType := some dt, documentImages := files
          submittedAt := some now, reviewedAt := none, reviewedBy := none
          rejectionReason := none } }) := by
  have hreq : 1 ≤ requiredImageCount dt := by
    unfold requiredImageCount; split <;> omega
  refine ⟨?_, ?_, ?_, ?_⟩
  · intro h
    simp only [submitVerification, if_pos h]
  · rintro h hcount
    by_cases h0 : files.length = 0
    · exact ⟨"Please upload document images", by
        simp only [submitVerification, if_neg (not_not_intro h), if_pos h0]⟩
    · exact ⟨_, by
        simp only [submitVerification, if_neg (not_not_intro h), if_neg h0, if_pos hcount]
        rfl⟩
  · rintro h hcount hst
    have h0 : ¬ files.length = 0 := by omega
    rcases hst with hp | ha
    · by_cases happ : u.verification.status = .approved
      · exact ⟨"Already verified", by
          simp only [submitVerification, if_neg (not_not_intro h), if_neg h0,
            if_neg (by omega : ¬ files.length ≠ requiredImageCount dt), if_pos happ]⟩
      · exact ⟨"Verification already pending review", by
          simp only [submitVerification, if_neg (not_not_intro h), if_neg h0,
            if_neg (by omega : ¬ files.length ≠ requiredImageCount dt), if_neg happ, if_pos hp]⟩
    · exact ⟨"Already verified", by
        simp only [submitVerification, if_neg (not_not_intro h), if_neg h0,
          if_neg (by omega : ¬ files.length ≠ requiredImageCount dt), if_pos ha]⟩
  · intro h hcount hpend happ
    have h0 : ¬ files.length = 0 := by omega
    simp only [submitVerification, if_neg (not_not_intro h), if_neg h0,
      if_neg (by omega : ¬ files.length ≠ requiredImageCount dt), if_neg happ, if_neg hpend]

/-- C5 witness: a passport submission with 2 images is a validation
failure; with 1 image, a rejected user is moved to a fresh pending record. -/
theorem c5_submit_verification_witness :
    (∃ m, submitVerification "passport" [sampleImage "a.jpg", sampleImage "b.jpg"]
        (sampleUser 1 .rejected) 10 = .error (.validation m)) ∧
    submitVerification "passport" [sampleImage "a.jpg"] (sampleUser 1 .rejected) 10 =
      .ok { sampleUser 1 .rejected with verification :=
        { status := .pending, documentType := some "passport"
          documentImages := [sampleImage "a.jpg"]
          submittedAt := some 10, reviewedAt := none, reviewedBy := none
          rejectionReason := none } } := by
  constructor
  · exact (c5_submit_verification "passport" [sampleImage "a.jpg", sampleImage "b.jpg"]
      (sampleUser 1 .rejected) 10).2.1 (Or.inl rfl) (by decide)
  · exact (c5_submit_verification "passport" [sampleImage "a.jpg"]
      (sampleUser 1 .rejected) 10).2.2.2 (Or.inl rfl) (by decide) (by decide) (by decide)

/-- C6: verification review accepts only approve / reject, requires a
non-empty reason for reject, fails with ConflictError when the target is
not pending (hence a second review fails), on success sets status /
reviewedAt / reviewedBy, appends exactly one in-app notification, and an
email-dispatch failure does not change the outcome. -/
theorem c6_review_verification (action reason : String) (adminId : Id)
    (u : User) (now : Int) (emailOk : Bool) :
    (¬ (action = "approve" ∨ action = "reject") →
      reviewVerification action reason adminId (some u) now emailOk =
        .error (.validation "Invalid action. Use approve or reject")) ∧
    (action = "reject" → reason = "" →
      reviewVerification action reason adminId (some u) now emailOk =
        .error (.validation "Rejection reason is required")) ∧
    ((action = "approve" ∨ action = "reject") → (action = "reject" → reason ≠ "") →
      u.verification.status ≠ .pending →
      reviewVerification action reason adminId (some u) now emailOk =
        .error (.conflict "No pending verification for this user")) ∧
    (reviewVerification action reason adminId (some u) now emailOk =
      reviewVerification action reason adminId (some u) now (!emailOk)) ∧
    ((action = "approve" ∨ action = "reject") → (action = "reject" → reason ≠ "") →
      u.verification.status = .pending →
      ∃ u', reviewVerification action reason adminId (some u) now emailOk = .ok u' ∧
        u'.verification.status = (if action = "approve" then .approved else .rejected) ∧
        u'.verification.reviewedAt = some now ∧
        u'.verification.reviewedBy = some adminId ∧
        u'.notifications = u.notifications ++ [reviewNotification action reason now] ∧
        (∀ (action2 reason2 : String) (adminId2 : Id) (now2 : Int) (emailOk2 : Bool),
          (action2 = "approve" ∨ action2 = "reject") →
          (action2 = "reject" → reason2 ≠ "") →
          reviewVerification action2 reason2 adminId2 (some u') now2 emailOk2 =
            .error (.conflict "No pending verification for this user"))) := by
  have conflictOf : ∀ (a r : String) (ad : Id) (v : User) (t : Int) (e : Bool),
      (a = "approve" ∨ a = "reject") → (a = "reject" → r ≠ "") →
      v.verification.status ≠ .pending →
      reviewVerification a r ad (some v) t e =
        .error (.conflict "No pending verification for this user") := by
    intro a r ad v t e ha hr hst
    simp only [reviewVerification]
    rw [if_neg (not_not_intro ha), if_neg (fun hc => hr hc.1 hc.2), if_pos hst]
  refine ⟨?_, ?_, conflictOf action reason adminId u now emailOk, ?_, ?_⟩
  · intro h
    simp only [reviewVerification]
    rw [if_pos h]
  · intro ha hr
    simp only [reviewVerification]
    rw [if_neg (not_not_intro (Or.inr ha)),
      if_pos (show action = "reject" ∧ reason = "" from ⟨ha, hr⟩)]
  · rfl
  · intro ha hr hst
    refine ⟨{ u with
        verification := { u.verification with
          status := if action = "approve" then .approved else .rejected
          reviewedAt := some now
          reviewedBy := some adminId
          rejectionReason := if action = "reject" then some reason
                             else u.verification.rejectionReason }
        notifications := u.notifications ++ [reviewNotification action reason now] },
      ?_, rfl, rfl, rfl, rfl, ?_⟩
    · simp only [reviewVerification]
      rw [if_neg (not_not_intro ha), if_neg (fun hc => hr hc.1 hc.2),
        if_neg (not_not_intro hst)]
    · intro action2 reason2 adminId2 now2 emailOk2 ha2 hr2
      refine conflictOf action2 reason2 adminId2 _ now2 emailOk2 ha2 hr2 ?_
      rcases ha with h | h <;> simp [h]

/-- C6 witness: approving a pending user succeeds with the recorded
review fields and one appended notification (independently of the email
outcome), and approving again conflicts. -/
theorem c6_review_verification_witness :
    ∃ u', reviewVerification "approve" "" 9 (some (sampleUser 3 .pending)) 42 false = .ok u' ∧
      u'.verification.status = (if "approve" = "approve" then VerifStatus.approved else .rejected) ∧
      u'.verification.reviewedAt = some 42 ∧
      u'.verification.reviewedBy = some 9 ∧
      u'.notifications = (sampleUser 3 .pending).notifications ++ [reviewNotification "approve" "" 42] ∧
      (∀ (action2 reason2 : String) (adminId2 : Id) (now2 : Int) (emailOk2 : Bool),
        (action2 = "approve" ∨ action2 = "reject") →
        (action2 = "reject" → reason2 ≠ "") →
        reviewVerification action2 reason2 adminId2 (some u') now2 emailOk2 =
          .error (.conflict "No pending verification for this user")) :=
  (c6_review_verification "approve" "" 9 (sampleUser 3 .pending) 42 false).2.2.2.2
    (Or.inl rfl) (by decide) (by decide)

/-! ## Claim theorems: listing reports -/

/-- C7: reporting appends one report; a duplicate report by the same user
fails with DuplicateError (leaving the listing unchanged, since the
handler returns before any write); reaching 3 reports forces
moderationStatus back to pending regardless of its prior value. -/
theorem c7_report_listing (uid : Id) (reason : String) (l : Listing) (now : Int)
    (hr : trimStr reason ≠ "") :
    (l.reports.any (fun r => r.user = uid) = true →
      reportListing uid reason l now =
        .error (.duplicate "You have already reported this listing")) ∧
    (l.reports.any (fun r => r.user = uid) = false →
      ∃ l', reportListing uid reason l now = .ok l' ∧
        l'.reports = l.reports ++ [{ user := uid, reason := trimStr reason, createdAt := now }] ∧
        (3 ≤ l'.reports.length → l'.moderationStatus = .pending) ∧
        (l'.reports.length < 3 → l'.moderationStatus = l.moderationStatus) ∧
        (∀ (reason2 : String) (now2 : Int), trimStr reason2 ≠ "" →
          reportListing uid reason2 l' now2 =
            .error (.duplicate "You have already reported this listing"))) := by
  constructor
  · intro hdup
    simp [reportListing, hr, hdup]
  · intro hdup
    have hsucc : reportListing uid reason l now = .ok { l with
        reports := l.reports ++ [({ user := uid, reason := trimStr reason, createdAt := now } : Report)]
        moderationStatus :=
          if 3 ≤ (l.reports ++ [({ user := uid, reason := trimStr reason, createdAt := now } : Report)]).length
          then .pending else l.moderationStatus } := by
      simp [reportListing, hr, hdup]
    refine ⟨_, hsucc, rfl, ?_, ?_, ?_⟩
    · intro h3
      exact if_pos h3
    · intro h3
      have h3' : (l.reports ++ [({ user := uid, reason := trimStr reason, createdAt := now } : Report)]).length < 3 := h3
      exact if_neg (by omega)
    · intro reason2 now2 hr2
      have hdup2 : ((l.reports ++ [({ user := uid, reason := trimStr reason, createdAt := now } : Report)]).any
          (fun r => r.user = uid)) = true := by
        simp
      simp [reportListing, hr2, hdup2]

/-- C7 witness: a third distinct report on an approved listing flips its
moderation status back to pending, and repeating it is a duplicate
failure. -/
theorem c7_report_listing_witness :
    ∃ l', reportListing 7 "spam" { sampleListing 1 2 with
        moderationStatus := .approved
        reports := [{ user := 5, reason := "x", createdAt := 0 },
                    { user := 6, reason := "y", createdAt := 1 }] } 2 = .ok l' ∧
      l'.reports = [{ user := 5, reason := "x", createdAt := 0 },
                    { user := 6, reason := "y", createdAt := 1 },
                    { user := 7, reason := "spam", createdAt := 2 }] ∧
      (3 ≤ l'.reports.length → l'.moderationStatus = .pending) ∧
      (l'.reports.length < 3 → l'.moderationStatus = ModerationStatus.approved) ∧
      (∀ (reason2 : String) (now2 : Int), trimStr reason2 ≠ "" →
        reportListing 7 reason2 l' now2 =
          .error (.duplicate "You have already reported this listing")) := by
  have h := (c7_report_listing 7 "spam" { sampleListing 1 2 with
      moderationStatus := .approved
      reports := [{ user := 5, reason := "x", createdAt := 0 },
                  { user := 6, reason := "y", createdAt := 1 }] } 2 (by decide)).2 (by decide)
  simpa using h

/-! ## Claim theorems: favorite toggle -/

/-- C8: the favorite toggle is its own inverse — toggling twice returns
the user's favorites (as a set: up to permutation) and the listing's
favoritesCount to their original values — and each single toggle keeps
the two sides in sync: the id is appended exactly when the counter is
incremented and removed exactly when it is decremented.  The hypotheses
state the consistency of the stored pair: no duplicate favorites, a
non-negative counter, and a positive counter whenever the listing is
favorited. -/
theorem c8_favorite_toggle (u : User) (l : Listing)
    (hnd : u.favorites.Nodup)
    (h0 : 0 ≤ l.favoritesCount)
    (h1 : l.id ∈ u.favorites → 1 ≤ l.favoritesCount) :
    ((toggleFavorite (toggleFavorite u l).user (toggleFavorite u l).listing).user.favorites.Perm
        u.favorites ∧
     (toggleFavorite (toggleFavorite u l).user (toggleFavorite u l).listing).listing.favoritesCount =
        l.favoritesCount) ∧
    (l.id ∉ u.favorites →
      (toggleFavorite u l).user.favorites = u.favorites ++ [l.id] ∧
      (toggleFavorite u l).listing.favoritesCount = l.favoritesCount + 1) ∧
    (l.id ∈ u.favorites →
      (toggleFavorite u l).user.favorites = u.favorites.erase l.id ∧
      (toggleFavorite u l).listing.favoritesCount = l.favoritesCount - 1) := by
  by_cases hm : l.id ∈ u.favorites
  · have hclamp : max 0 (l.favoritesCount - 1) = l.favoritesCount - 1 :=
      max_eq_right (by have := h1 hm; omega)
    have ht1 : toggleFavorite u l =
        { user := { u with favorites := u.favorites.erase l.id }
          listing := { l with favoritesCount := max 0 (l.favoritesCount - 1) }
          isFavorited := false } := by
      simp [toggleFavorite, hm]
    have hnm : l.id ∉ u.favorites.erase l.id := fun hmem =>
      ((List.Nodup.mem_erase_iff hnd).mp hmem).1 rfl
    have ht2 : toggleFavorite { u with favorites := u.favorites.erase l.id }
        { l with favoritesCount := max 0 (l.favoritesCount - 1) } =
        { user := { u with favorites := u.favorites.erase l.id ++ [l.id] }
          listing := { l with favoritesCount := max 0 (l.favoritesCount - 1) + 1 }
          isFavorited := true } := by
      simp [toggleFavorite, hnm]
    refine ⟨⟨?_, ?_⟩, fun hnot => absurd hm hnot, fun _ => ?_⟩
    · rw [ht1]
      simp only [ht2]
      exact ((List.perm_append_singleton l.id (u.favorites.erase l.id)).trans
        (List.perm_cons_erase hm).symm)
    · rw [ht1]
      simp only [ht2]
      rw [hclamp]
      have := h1 hm
      omega
    · rw [ht1]
      exact ⟨rfl, by simp only [hclamp]⟩
  · have ht1 : toggleFavorite u l =
        { user := { u with favorites := u.favorites ++ [l.id] }
          listing := { l with favoritesCount := l.favoritesCount + 1 }
          isFavorited := true } := by
      simp [toggleFavorite, hm]
    have hmem2 : l.id ∈ u.favorites ++ [l.id] := by simp
    have herase : (u.favorites ++ [l.id]).erase l.id = u.favorites := by
      rw [List.erase_append_right _ hm]
      simp
    have ht2 : toggleFavorite { u with favorites := u.favorites ++ [l.id] }
        { l with favoritesCount := l.favoritesCount + 1 } =
        { user := { u with favorites := (u.favorites ++ [l.id]).erase l.id }
          listing := { l with favoritesCount := max 0 (l.favoritesCount + 1 - 1) }
          isFavorited := false } := by
      simp [toggleFavorite, hmem2]
    refine ⟨⟨?_, ?_⟩, fun _ => ⟨by rw [ht1], by rw [ht1]⟩, fun hyes => absurd hyes hm⟩
    · rw [ht1]
      simp only [ht2, herase]
      exact List.Perm.refl _
    · rw [ht1]
      simp only [ht2]
      omega

/-- C8 witness: the double toggle restores a concrete favorited pair and
the single-toggle sync holds there. -/
theorem c8_favorite_toggle_witness :
    (((toggleFavorite (toggleFavorite { sampleUser 1 .approved with favorites := [4] }
          { sampleListing 4 2 with favoritesCount := 1 }).user
        (toggleFavorite { sampleUser 1 .approved with favorites := [4] }
          { sampleListing 4 2 with favoritesCount := 1 }).listing).user.favorites.Perm
        [4]) ∧
     (toggleFavorite (toggleFavorite { sampleUser 1 .approved with favorites := [4] }
          { sampleListing 4 2 with favoritesCount := 1 }).user
        (toggleFavorite { sampleUser 1 .approved with favorites := [4] }
          { sampleListing 4 2 with favoritesCount := 1 }).listing).listing.favoritesCount = 1) ∧
    ((4 : Id) ∈ ({ sampleUser 1 .approved with favorites := [4] } : User).favorites →
      (toggleFavorite { sampleUser 1 .approved with favorites := [4] }
        { sampleListing 4 2 with favoritesCount := 1 }).user.favorites = ([4] : List Id).erase 4 ∧
      (toggleFavorite { sampleUser 1 .approved with favorites := [4] }
        { sampleListing 4 2 with favoritesCount := 1 }).listing.favoritesCount = 1 - 1) := by
  have h := c8_favorite_toggle { sampleUser 1 .approved with favorites := [4] }
    { sampleListing 4 2 with favoritesCount := 1 }
    (by decide) (by decide) (fun _ => by decide)
  exact ⟨h.1, h.2.2⟩

/-- C10: toggling never drives favoritesCount negative — starting from a
non-negative count the result is non-negative, and when an un-favorite
happens while the stored count is already 0, the clamp keeps it at 0. -/
theorem c10_favorites_count_clamp (u : User) (l : Listing)
    (h0 : 0 ≤ l.favoritesCount) :
    0 ≤ (toggleFavorite u l).listing.favoritesCount ∧
    (l.id ∈ u.favorites → l.favoritesCount = 0 →
      (toggleFavorite u l).listing.favoritesCount = 0) := by
  constructor
  · by_cases hm : l.id ∈ u.favorites
    · simp only [toggleFavorite, if_pos hm]
      exact le_max_left 0 _
    · simp only [toggleFavorite, if_neg hm]
      omega
  · intro hm hz
    simp only [toggleFavorite, if_pos hm, hz]
    rfl

/-- C10 witness: removing a favorite while the stored count is 0 leaves
the count at 0 (and non-negative). -/
theorem c10_favorites_count_clamp_witness :
    0 ≤ (toggleFavorite { sampleUser 1 .approved with favorites := [4] }
        (sampleListing 4 2)).listing.favoritesCount ∧
    (toggleFavorite { sampleUser 1 .approved with favorites := [4] }
        (sampleListing 4 2)).listing.favoritesCount = 0 := by
  have h := c10_favorites_count_clamp { sampleUser 1 .approved with favorites := [4] }
    (sampleListing 4 2) (by decide)
  exact ⟨h.1, h.2 (by decide) (by decide)⟩

/-! ## Claim theorems: listing creation -/

/-- C9: creating a listing fails with the verification-required
AuthorizationError for every user whose verification status is not
approved; for an approved user (and a valid body) creation succeeds and
the new listing has moderationStatus pending, status active and isDeleted
false. -/
theorem c9_create_listing (u : User) (inp : ListingInput) (newId : Id) :
    (u.verification.status ≠ .approved →
      createListing u inp newId =
        .error (.authorization "Identity verification required" true)) ∧
    (u.verification.status = .approved → listingInputValid inp = true →
      ∃ l, createListing u inp newId = .ok l ∧
        l.moderationStatus = .pending ∧ l.status = .active ∧
        l.isDeleted = false ∧ l.seller = u.id) := by
  constructor
  · intro h
    simp only [createListing, verifiedOnlyCheck, if_pos h]
  · intro h hv
    have hok : createListing u inp newId = .ok
        { id := newId, title := trimStr inp.title, seller := u.id, status := .active,
          moderationStatus := .pending, moderationNote := "", featured := false, views := 0,
          favoritesCount := 0, reports := [], isDeleted := false, deletedAt := none,
          deleteReason := none } := by
      simp only [createListing, verifiedOnlyCheck, if_neg (not_not_intro h)]
      rw [if_neg (not_not_intro hv)]
    exact ⟨_, hok, rfl, rfl, rfl, rfl⟩

/-- C9 witness: an unverified user is turned away with the
verification-required error; an approved user's listing is created
pending moderation, active and not deleted. -/
theorem c9_create_listing_witness :
    createListing (sampleUser 1 .unverified)
      { title := "Bike", description := "A bike", price := 100
        category := .sports, condition := .good, area := "Maadi" } 11 =
      .error (.authorization "Identity verification required" true) ∧
    (∃ l, createListing (sampleUser 1 .approved)
        { title := "Bike", description := "A bike", price := 100
          category := .sports, condition := .good, area := "Maadi" } 11 = .ok l ∧
      l.moderationStatus = .pending ∧ l.status = .active ∧
      l.isDeleted = false ∧ l.seller = (sampleUser 1 .approved).id) := by
  constructor
  · exact (c9_create_listing (sampleUser 1 .unverified)
      { title := "Bike", description := "A bike", price := 100
        category := .sports, condition := .good, area := "Maadi" } 11).1 (by decide)
  · exact (c9_create_listing (sampleUser 1 .approved)
      { title := "Bike", description := "A bike", price := 100
        category := .sports, condition := .good, area := "Maadi" } 11).2 rfl (by decide)

/-! ## Claim theorems: public visibility of listings -/

/-- C1 counterexample: the public read paths do not all agree with the
spec's visibility predicate.  A soft-deleted listing whose moderation
status is still pending, deleted at the time of the request, is not
spec-visible (moderation is not approved) and is excluded by the list
query, yet the by-id fetch serves it as a sold listing with delete
metadata (that branch never checks moderationStatus).  Moreover at
exactly the 2-day boundary the spec predicate (at most 2 days) says
visible while the list query (strictly greater than the cutoff) excludes
the listing. -/
theorem c1_visibility_counterexample :
    (specPubliclyVisible { sampleListing 1 2 with
        moderationStatus := .pending, isDeleted := true,
        deletedAt := some 1700000000000, deleteReason := some "Item Sold" }
        1700000000000 = false ∧
     listQueryMatches { sampleListing 1 2 with
        moderationStatus := .pending, isDeleted := true,
        deletedAt := some 1700000000000, deleteReason := some "Item Sold" }
        1700000000000 = false ∧
     getListingById (some { sampleListing 1 2 with
        moderationStatus := .pending, isDeleted := true,
        deletedAt := some 1700000000000, deleteReason := some "Item Sold" })
        none 1700000000000 =
       .soldView { sampleListing 1 2 with
          moderationStatus := .pending, isDeleted := true,
          deletedAt := some 1700000000000, deleteReason := some "Item Sold",
          status := .sold }
         { isDeleted := true, reason := some "Item Sold", deletedAt := 1700000000000 }) ∧
    (specPubliclyVisible { sampleListing 1 2 with
        moderationStatus := .approved, isDeleted := true,
        deletedAt := some (1700000000000 - twoDaysMs) } 1700000000000 = true ∧
     listQueryMatches { sampleListing 1 2 with
        moderationStatus := .approved, isDeleted := true,
        deletedAt := some (1700000000000 - twoDaysMs) } 1700000000000 = false) := by
  decide

/-- C1 (amended): the list read paths treat a listing as visible exactly
when moderationStatus is approved and either (status active and not
deleted) or (deleted with now - deletedAt strictly below 2 days); the
by-id fetch of a soft-deleted listing — regardless of its moderation
status and of the requester — fails NotFound once now - deletedAt exceeds
2 days and otherwise returns it displayed as sold together with its
delete metadata. -/
theorem c1_public_visibility (l : Listing) (now : Int) :
    (listQueryMatches l now = true ↔
      (l.moderationStatus = .approved ∧
        ((l.status = .active ∧ l.isDeleted = false) ∨
         (l.isDeleted = true ∧ ∃ d, l.deletedAt = some d ∧ now - d < twoDaysMs)))) ∧
    (∀ (d : Int) (v : Option Viewer), l.isDeleted = true → l.deletedAt = some d →
      ((twoDaysMs < now - d → getListingById (some l) v now = .notFound) ∧
       (now - d ≤ twoDaysMs →
         getListingById (some l) v now =
           .soldView { l with status := .sold }
             { isDeleted := true, reason := l.deleteReason, deletedAt := d }))) := by
  constructor
  · cases hd : l.deletedAt with
    | none =>
      simp only [listQueryMatches, hd, Bool.and_eq_true, Bool.or_eq_true,
        decide_eq_true_eq, Bool.not_eq_true']
      constructor
      · rintro ⟨hmod, hrest⟩
        refine ⟨hmod, ?_⟩
        rcases hrest with ⟨hs, hdel⟩ | ⟨_, hfalse⟩
        · exact Or.inl ⟨hs, hdel⟩
        · cases hfalse
      · rintro ⟨hmod, hrest⟩
        refine ⟨hmod, ?_⟩
        rcases hrest with ⟨hs, hdel⟩ | ⟨_, d, hds, _⟩
        · exact Or.inl ⟨hs, hdel⟩
        · cases hds
    | some d =>
      simp only [listQueryMatches, hd, Bool.and_eq_true, Bool.or_eq_true,
        decide_eq_true_eq, Bool.not_eq_true']
      constructor
      · rintro ⟨hmod, hrest⟩
        refine ⟨hmod, ?_⟩
        rcases hrest with ⟨hs, hdel⟩ | ⟨hdel, hlt⟩
        · exact Or.inl ⟨hs, hdel⟩
        · exact Or.inr ⟨hdel, d, rfl, by omega⟩
      · rintro ⟨hmod, hrest⟩
        refine ⟨hmod, ?_⟩
        rcases hrest with ⟨hs, hdel⟩ | ⟨hdel, d2, hd2, hlt⟩
        · exact Or.inl ⟨hs, hdel⟩
        · refine Or.inr ⟨hdel, ?_⟩
          injection hd2 with hd2e
          omega
  · intro d v hdel hdat
    constructor
    · intro hgt
      simp only [getListingById, hdel, hdat, if_true, if_pos hgt]
    · intro hle
      simp only [getListingById, hdel, hdat, if_true, if_neg (not_lt.mpr hle)]

/-- C1 witness: a listing soft-deleted three days ago is NotFound by id,
one deleted an hour ago is served as sold with its delete metadata. -/
theorem c1_public_visibility_witness :
    getListingById (some { sampleListing 1 2 with
        moderationStatus := .approved, isDeleted := true,
        deletedAt := some (1700000000000 - 3 * 24 * 60 * 60 * 1000),
        deleteReason := some "Item Sold" }) none 1700000000000 = .notFound ∧
    getListingById (some { sampleListing 1 2 with
        moderationStatus := .approved, isDeleted := true,
        deletedAt := some (1700000000000 - 60 * 60 * 1000),
        deleteReason := some "Item Sold" }) none 1700000000000 =
      .soldView { sampleListing 1 2 with
          moderationStatus := .approved, isDeleted := true,
          deletedAt := some (1700000000000 - 60 * 60 * 1000),
          deleteReason := some "Item Sold", status := .sold }
        { isDeleted := true, reason := some "Item Sold",
          deletedAt := 1700000000000 - 60 * 60 * 1000 } := by
  constructor
  · exact ((c1_public_visibility { sampleListing 1 2 with
      moderationStatus := .approved, isDeleted := true,
      deletedAt := some (1700000000000 - 3 * 24 * 60 * 60 * 1000),
      deleteReason := some "Item Sold" } 1700000000000).2
      (1700000000000 - 3 * 24 * 60 * 60 * 1000) none rfl rfl).1 (by decide)
  · exact ((c1_public_visibility { sampleListing 1 2 with
      moderationStatus := .approved, isDeleted := true,
      deletedAt := some (1700000000000 - 60 * 60 * 1000),
      deleteReason := some "Item Sold" } 1700000000000).2
      (1700000000000 - 60 * 60 * 1000) none rfl rfl).2 (by decide)

/-! ## Claim theorems: notification cap -/

/-- C4 counterexample: the moderation-decision path appends to the
seller's notifications with a plain push and no cap, so a seller who
already holds 50 notifications ends up with 51 after an approval,
violating the claimed 50-entry bound. -/
theorem c4_notifications_counterexample :
    (moderateListing "approve" none
        (some (sampleListing 1 2,
          { sampleUser 2 .approved with notifications := List.replicate 50 sampleNotification }))
        0 true).map (fun p => p.2.notifications.length) = .ok 51 := by
  rfl

/-- C4 (amended): only the new-message notification path is capped — its
MongoDB push with slice -50 keeps at most 50 entries, keeping a suffix of
the appended list (newest kept, oldest dropped) and behaving as a plain
append below the cap; the moderation-decision and verification-review
paths append one notification without any cap. -/
theorem c4_notification_cap (ns : List Notification) (n : Notification)
    (action : String) (note : Option String) (l : Listing) (seller : User)
    (reason : String) (adminId : Id) (target : User) (now : Int) (emailOk : Bool) :
    ((pushMessageNotification ns n).length = min (ns.length + 1) 50 ∧
     (pushMessageNotification ns n).IsSuffix (ns ++ [n]) ∧
     (ns.length ≤ 49 → pushMessageNotification ns n = ns ++ [n])) ∧
    ((action = "approve" ∨ action = "reject") →
      (moderateListing action note (some (l, seller)) now emailOk).map
          (fun p => p.2.notifications.length) = .ok (seller.notifications.length + 1)) ∧
    (target.verification.status = .pending →
      (reviewVerification "approve" reason adminId (some target) now emailOk).map
          (fun u => u.notifications.length) = .ok (target.notifications.length + 1)) := by
  refine ⟨⟨?_, ?_, ?_⟩, ?_, ?_⟩
  · simp only [pushMessageNotification, List.length_drop, List.length_append,
      List.length_singleton]
    omega
  · exact List.drop_suffix _ _
  · intro h
    simp only [pushMessageNotification, List.length_append, List.length_singleton]
    rw [show ns.length + 1 - 50 = 0 by omega, List.drop_zero]
  · intro ha
    simp only [moderateListing]
    rw [if_neg (not_not_intro ha)]
    simp [Except.map]
  · intro hp
    simp [reviewVerification, hp, Except.map]

/-- C4 witness: at 50 stored notifications the message path stays at 50
(dropping the oldest), while a moderation decision pushes the list to
51. -/
theorem c4_notification_cap_witness :
    (pushMessageNotification (List.replicate 50 sampleNotification) sampleNotification).length =
      min ((List.replicate 50 sampleNotification).length + 1) 50 ∧
    (moderateListing "approve" none
        (some (sampleListing 1 2,
          { sampleUser 2 .approved with notifications := List.replicate 50 sampleNotification }))
        0 true).map (fun p => p.2.notifications.length) =
      .ok (({ sampleUser 2 .approved with
          notifications := List.replicate 50 sampleNotification } : User).notifications.length + 1) := by
  have h := c4_notification_cap (List.replicate 50 sampleNotification) sampleNotification
    "approve" none (sampleListing 1 2)
    { sampleUser 2 .approved with notifications := List.replicate 50 sampleNotification }
    "r" 9 (sampleUser 3 .pending) 0 true
  exact ⟨h.1.1, h.2.1 (Or.inl rfl)⟩

/-! ## Engine lemmas for the content filter

The key structural fact about the battery: none of its character classes
or literals accepts the left bracket, so no match ever consumes a
bracket, while every replacement inserts one — the number of left
brackets can only grow, and strictly grows on the first replacement.
This is what connects the filter's `hasFiltered` flag to the text having
actually changed. -/

/-- The class rejects the left bracket of the redaction token. -/
def clsNoLB (p : Char → Bool) : Bool := !(p '[')

/-- Every class and literal of the regex rejects the left bracket. -/
def reNoLB : Re → Bool
  | .eps => true
  | .cls p => clsNoLB p
  | .seq a b => reNoLB a && reNoLB b
  | .alt a b => reNoLB a && reNoLB b
  | .rep p _ _ => clsNoLB p
  | .opt r => reNoLB r
  | .wb => true

/-- A repetition match consumes a prefix whose characters all satisfy the
class. -/
theorem mrep_split (p : Char → Bool) :
    ∀ (lo : Nat) (hi : Option Nat) (prev pr : Option Char) (s rest : List Char),
      (pr, rest) ∈ mrep p lo hi prev s →
      ∃ pre, s = pre ++ rest ∧ ∀ c ∈ pre, p c = true := by
  intro lo hi prev pr s
  induction s generalizing lo hi prev with
  | nil =>
    intro rest h
    simp only [mrep] at h
    split at h
    · simp only [List.mem_singleton, Prod.mk.injEq] at h
      exact ⟨[], by simp [h.2], by simp⟩
    · simp at h
  | cons c s2 ih =>
    intro rest h
    simp only [mrep] at h
    split at h
    · split at h
      · simp only [List.mem_singleton, Prod.mk.injEq] at h
        exact ⟨[], by simp [h.2], by simp⟩
      · simp at h
    · split at h
      next hpc =>
        rw [List.mem_append] at h
        rcases h with h | h
        · obtain ⟨pre, hs, hall⟩ := ih _ _ _ _ h
          refine ⟨c :: pre, by simp [hs], ?_⟩
          intro x hx
          rcases List.mem_cons.mp hx with rfl | hx
          · exact hpc
          · exact hall x hx
        · split at h
          · simp only [List.mem_singleton, Prod.mk.injEq] at h
            exact ⟨[], by simp [h.2], by simp⟩
          · simp at h
      next hpc =>
        split at h
        · simp only [List.mem_singleton, Prod.mk.injEq] at h
          exact ⟨[], by simp [h.2], by simp⟩
        · simp at h

/-- A match of a bracket-free regex consumes a prefix containing no left
bracket. -/
theorem mre_split : ∀ (r : Re) (prev pr : Option Char) (s rest : List Char),
    reNoLB r = true → (pr, rest) ∈ mre r prev s →
    ∃ pre, s = pre ++ rest ∧ '[' ∉ pre := by
  intro r
  induction r with
  | eps =>
    intro prev pr s rest _ h
    simp only [mre, List.mem_singleton, Prod.mk.injEq] at h
    exact ⟨[], by simp [h.2], by simp⟩
  | cls p =>
    intro prev pr s rest hnb h
    cases s with
    | nil => simp [mre] at h
    | cons c s2 =>
      simp only [mre] at h
      split at h
      next hpc =>
        simp only [List.mem_singleton, Prod.mk.injEq] at h
        refine ⟨[c], by simp [h.2], ?_⟩
        intro hmem
        rw [List.mem_singleton] at hmem
        rw [← hmem] at hpc
        simp only [reNoLB, clsNoLB, Bool.not_eq_true'] at hnb
        rw [hnb] at hpc
        cases hpc
      next => simp at h
  | seq a b iha ihb =>
    intro prev pr s rest hnb h
    simp only [mre, List.mem_flatMap] at h
    obtain ⟨⟨pr1, mid⟩, h1, h2⟩ := h
    simp only [reNoLB, Bool.and_eq_true] at hnb
    obtain ⟨pre1, hs1, hnb1⟩ := iha prev pr1 s mid hnb.1 h1
    obtain ⟨pre2, hs2, hnb2⟩ := ihb pr1 pr mid rest hnb.2 h2
    refine ⟨pre1 ++ pre2, by simp [hs1, hs2], ?_⟩
    simp only [List.mem_append]
    rintro (hx | hx)
    · exact hnb1 hx
    · exact hnb2 hx
  | alt a b iha ihb =>
    intro prev pr s rest hnb h
    simp only [reNoLB, Bool.and_eq_true] at hnb
    simp only [mre, List.mem_append] at h
    rcases h with h | h
    · exact iha prev pr s rest hnb.1 h
    · exact ihb prev pr s rest hnb.2 h
  | rep p lo hi =>
    intro prev pr s rest hnb h
    simp only [mre] at h
    obtain ⟨pre, hs, hall⟩ := mrep_split p lo hi prev pr s rest h
    refine ⟨pre, hs, fun hmem => ?_⟩
    have hp := hall _ hmem
    simp only [reNoLB, clsNoLB, Bool.not_eq_true'] at hnb
    rw [hnb] at hp
    cases hp
  | opt r ihr =>
    intro prev pr s rest hnb h
    simp only [mre, List.mem_append] at h
    rcases h with h | h
    · exact ihr prev pr s rest hnb h
    · simp only [List.mem_singleton, Prod.mk.injEq] at h
      exact ⟨[], by simp [h.2], by simp⟩
  | wb =>
    intro prev pr s rest _ h
    simp only [mre] at h
    split at h
    · simp only [List.mem_singleton, Prod.mk.injEq] at h
      exact ⟨[], by simp [h.2], by simp⟩
    · simp at h

/-- A match of a bracket-free regex leaves the left-bracket count of the
remaining input equal to that of the whole input. -/
theorem mre_count (r : Re) (prev pr : Option Char) (s rest : List Char)
    (hnb : reNoLB r = true) (h : (pr, rest) ∈ mre r prev s) :
    rest.count '[' = s.count '[' := by
  obtain ⟨pre, hs, hpre⟩ := mre_split r prev pr s rest hnb h
  subst hs
  rw [List.count_append, List.count_eq_zero_of_not_mem hpre, Nat.zero_add]

/-- Global replacement by a bracket-free regex never loses left
brackets. -/
theorem scanReplace_count_ge (r : Re) (tok : List Char) (hnb : reNoLB r = true) :
    ∀ (fuel : Nat) (prev : Option Char) (s : List Char),
      s.count '[' ≤ (scanReplace r tok fuel prev s).count '[' := by
  intro fuel
  induction fuel with
  | zero =>
    intro prev s
    simp [scanReplace]
  | succ fuel ih =>
    intro prev s
    simp only [scanReplace]
    split
    next pr rest tl heq =>
      have hdm : (pr, rest) ∈ mre r prev s := by
        rw [heq]; exact List.mem_cons_self _ _
      have hcnt := mre_count r prev pr s rest hnb hdm
      split
      next hlt =>
        rw [List.count_append]
        have := ih pr rest
        omega
      next hge =>
        split
        next => simp
        next c s2 =>
          rw [List.count_append, List.count_cons, List.count_cons]
          have := ih (some c) s2
          omega
    next heq =>
      split
      next => simp
      next c s2 =>
        simp only [List.count_cons]
        have := ih (some c) s2
        omega

/-- When the scan finds a match of a bracket-free regex and the token
contains a left bracket, the replacement strictly increases the
left-bracket count. -/
theorem scanReplace_count_gt (r : Re) (tok : List Char) (hnb : reNoLB r = true)
    (htok : 0 < tok.count '[') :
    ∀ (fuel : Nat) (prev : Option Char) (s : List Char),
      scanHas r fuel prev s = true →
      s.count '[' < (scanReplace r tok fuel prev s).count '[' := by
  intro fuel
  induction fuel with
  | zero =>
    intro prev s h
    simp [scanHas] at h
  | succ fuel ih =>
    intro prev s hhas
    simp only [scanHas] at hhas
    simp only [scanReplace]
    split
    next pr rest tl heq =>
      have hdm : (pr, rest) ∈ mre r prev s := by
        rw [heq]; exact List.mem_cons_self _ _
      have hcnt := mre_count r prev pr s rest hnb hdm
      split
      next hlt =>
        rw [List.count_append]
        have := scanReplace_count_ge r tok hnb fuel pr rest
        omega
      next hge =>
        split
        next =>
          simp only [List.count_nil]
          omega
        next c s2 =>
          rw [List.count_append, List.count_cons, List.count_cons]
          have := scanReplace_count_ge r tok hnb fuel (some c) s2
          omega
    next heq =>
      rw [heq] at hhas
      simp only [List.isEmpty_nil, if_true] at hhas
      split
      next =>
        cases hhas
      next c s2 =>
        simp only [List.count_cons]
        have hs2 : scanHas r fuel (some c) s2 = true := hhas
        have := ih (some c) s2 hs2
        omega

/-- The invariant of the filter's pattern loop: while no pattern has
fired the text is unchanged, and once one has fired the filtered text
holds strictly more left brackets than the input (hence differs from
it). -/
theorem filter_foldl_invariant (text : String) :
    ∀ (pats : List Re), (∀ r ∈ pats, reNoLB r = true) →
    ∀ (st : String × Bool),
      (st.2 = false → st.1 = text) →
      (st.2 = true → text.data.count '[' < st.1.data.count '[') →
      ((pats.foldl (applyPattern text) st).2 = false →
        (pats.foldl (applyPattern text) st).1 = text) ∧
      ((pats.foldl (applyPattern text) st).2 = true →
        text.data.count '[' < (pats.foldl (applyPattern text) st).1.data.count '[') := by
  intro pats
  induction pats with
  | nil =>
    intro _ st h1 h2
    exact ⟨h1, h2⟩
  | cons r pats ih =>
    intro hall st h1 h2
    have hnbr : reNoLB r = true := hall r (List.mem_cons_self _ _)
    simp only [List.foldl_cons]
    apply ih (fun x hx => hall x (List.mem_cons_of_mem _ hx))
    · intro hf
      unfold applyPattern at hf ⊢
      split at hf
      · cases hf
      · rw [if_neg (by assumption)]
        exact h1 hf
    · intro ht
      unfold applyPattern at ht ⊢
      split at ht
      next hhasM =>
        rw [if_pos hhasM]
        show text.data.count '[' < (replAll r st.1).data.count '['
        cases hb : st.2 with
        | true =>
          have hlt := h2 hb
          have hge := scanReplace_count_ge r hiddenTok.data hnbr
            (st.1.data.length + 1) none st.1.data
          simp only [replAll]
          omega
        | false =>
          have hst1 : st.1 = text := h1 hb
          rw [hst1]
          have hgt := scanReplace_count_gt r hiddenTok.data hnbr (by decide)
            (text.data.length + 1) none text.data hhasM
          simpa only [replAll] using hgt
      next hhasM =>
        rw [if_neg hhasM]
        exact h2 ht

/-- All eleven patterns of the battery are bracket-free. -/
theorem allPatterns_noLB : ∀ r ∈ allPatterns, reNoLB r = true := by
  intro r hr
  have hall : allPatterns.all reNoLB = true := by decide
  exact List.all_eq_true.mp hall r hr

/-- The filter reports `hasFiltered` exactly when it changed the text. -/
theorem filterPersonalInfo_hasFiltered_iff (text : String) :
    (filterPersonalInfo text).hasFiltered = true ↔
    (filterPersonalInfo text).filtered ≠ text := by
  have hinv := filter_foldl_invariant text allPatterns allPatterns_noLB
    (text, false) (fun _ => rfl) (fun h => by cases h)
  constructor
  · intro ht heq
    have hlt := hinv.2 ht
    have : (filterPersonalInfo text).filtered = (allPatterns.foldl (applyPattern text) (text, false)).1 := rfl
    rw [← this, heq] at hlt
    exact lt_irrefl _ hlt
  · intro hne
    cases hf : (filterPersonalInfo text).hasFiltered with
    | true => rfl
    | false =>
      exact absurd (hinv.1 hf) hne

/-! ## Claim theorems: message content filtering -/

/-- C2 (amended): for every message created by sendMessage, the stored
content equals the Content Filter's output on the raw input, isFiltered
is true exactly when filtering altered the text, and originalContent is
populated (equal to the raw input) if and only if isFiltered is true.
(The original claim's further conjunct — that the stored content contains
none of the filter's patterns — is false, see the counterexample.) -/
theorem c2_message_filtering (convId senderId : Id) (raw msgType : String) :
    (mkMessageDoc convId senderId raw msgType).content = (filterPersonalInfo raw).filtered ∧
    ((mkMessageDoc convId senderId raw msgType).isFiltered = true ↔
      (mkMessageDoc convId senderId raw msgType).content ≠ raw) ∧
    ((mkMessageDoc convId senderId raw msgType).originalContent = some raw ↔
      (mkMessageDoc convId senderId raw msgType).isFiltered = true) := by
  refine ⟨rfl, ?_, ?_⟩
  · exact filterPersonalInfo_hasFiltered_iff raw
  · cases hf : (filterPersonalInfo raw).hasFiltered with
    | true => simp [mkMessageDoc, hf]
    | false => simp [mkMessageDoc, hf]

/-- C2 counterexample: the claim that stored content contains none of the
filter's patterns fails.  On the input `1234 567 8901http://a.bc` no
phone pattern matches (the digits touch the word `http`, so the required
word boundary is missing), but the URL pattern fires and its replacement
token ends in a non-word character, creating a word boundary: the stored
content `1234 567 8901[HIDDEN]` now matches the generic phone pattern, so
`containsPersonalInfo` still flags the stored content. -/
theorem c2_filter_leak_counterexample :
    (mkMessageDoc 1 1 "1234 567 8901http://a.bc" "text").content = "1234 567 8901[HIDDEN]" ∧
    (filterPersonalInfo "1234 567 8901http://a.bc").hasFiltered = true ∧
    containsPersonalInfo (mkMessageDoc 1 1 "1234 567 8901http://a.bc" "text").content = true := by
  exact ⟨rfl, rfl, rfl⟩

/-! ## Claim theorems: exposure of unfiltered message text -/

/-- A fresh two-participant conversation document. -/
def sampleConversation : Conversation :=
  { id := 5, participants := [1, 2], listing := 9,
    lastMessage := none, unreadCount := [], isActive := true }

/-- C3 (bug evaluation): sending `call me 01012345678` stores the
filtered text in the message document, but the conversation's
`lastMessage` snapshot is written with the raw request content, and the
conversation-list endpoint returns that snapshot to the non-admin
counterpart (participant 2) — so the unfiltered original does leak to a
non-admin reader, contrary to the claim.  The admin-only endpoint is
indeed the only reader of `originalContent` (last conjunct), but the
snapshot bypasses the filter. -/
theorem c3_lastmessage_exposes_original :
    ((sendMessage (some sampleConversation)
        (sampleUser 1 .approved) "call me 01012345678" "text" 100).map
      (fun o => o.conversation.lastMessage)) =
      .ok (some { content := "call me 01012345678", sender := 1, createdAt := 100 }) ∧
    ((sendMessage (some sampleConversation)
        (sampleUser 1 .approved) "call me 01012345678" "text" 100).map
      (fun o => o.message.content)) = .ok "call me [HIDDEN]" ∧
    ((sendMessage (some sampleConversation)
        (sampleUser 1 .approved) "call me 01012345678" "text" 100).map
      (fun o => o.message.isFiltered)) = .ok true ∧
    ((sendMessage (some sampleConversation)
        (sampleUser 1 .approved) "call me 01012345678" "text" 100).map
      (fun o => (getConversations [o.conversation] 2).map
        (fun v => v.conversation.lastMessage))) =
      .ok [some { content := "call me 01012345678", sender := 1, createdAt := 100 }] ∧
    getOriginalMessage (sampleUser 2 .approved)
        (some (mkMessageDoc 5 1 "call me 01012345678" "text")) =
      .error (.authorization "Not authorized - Admin access required" false) := by
  exact ⟨rfl, rfl, rfl, rfl, rfl⟩

end MarketCairo
